import Mathlib

/-!
Verification development for the BD-Skyline forest simulator.

The repository's `src/simulate_forest_bd_skyline.py` is the CLI entry point:
it assembles a list of skyline interval models from parallel parameter lists,
hands them to the forest assembly controller `generate`, and forwards the
returned summary triple to the log writer. The rate-model constructors
(`BirthDeathModel`, `CTModel`) and the controller `generate` live in the
`treesimulator` package, which is not part of the shown sources; those parts
are modelled from the specification (each such definition carries a
`Modelled from the spec:` doc comment). Everything else is a direct shallow
embedding of `main` in `src/simulate_forest_bd_skyline.py`.

Numeric convention: Python floats are embedded as rationals (`ℚ`); the
simulation's random-number stream is threaded explicitly as data.
-/

/-- Error taxonomy of the spec (§7): `InvalidParameter` for out-of-domain
model parameters, `ConfigurationMismatch` for inconsistent skyline lists. -/
inductive SimError where
  | InvalidParameter
  | ConfigurationMismatch
deriving DecidableEq, Repr

/-- The parameter record of a plain birth-death rate model: sampling
probability `p`, transmission rate `la` (λ), removal rate `psi` (ψ), and the
recipient-count distribution `n_recipients`. -/
structure BDParams where
  p : ℚ
  la : ℚ
  psi : ℚ
  n_recipients : List ℚ
deriving DecidableEq, Repr

/-- A rate model: either a plain birth-death model or a notification
decorator (`CTModel`) wrapping a base model with notification probability
`upsilon` (υ) and notified removal rate `phi` (φ). The spec (§9) prescribes
exactly this tagged-variant composition. -/
inductive Model where
  | plain (bd : BDParams)
  | notified (base : Model) (upsilon : ℚ) (phi : ℚ)
deriving DecidableEq, Repr

/-- Birth (transmission) rate of a model; the decorator leaves it unchanged. -/
def Model.la : Model → ℚ
  | .plain bd => bd.la
  | .notified base _ _ => base.la

/-- Removal rate of a model (the base rate ψ; a notified lineage would use φ
instead, spec §4.1). -/
def Model.psi : Model → ℚ
  | .plain bd => bd.psi
  | .notified base _ _ => base.psi

/-- Sampling probability of a model. -/
def Model.p : Model → ℚ
  | .plain bd => bd.p
  | .notified base _ _ => base.p

/-- Recipient-count distribution of a model. -/
def Model.recipients : Model → List ℚ
  | .plain bd => bd.n_recipients
  | .notified base _ _ => base.recipients

/-- Whether a model is a plain (undecorated) rate model. -/
def Model.isPlain : Model → Bool
  | .plain _ => true
  | .notified _ _ _ => false

/-- Whether any notification event is possible under this model: only a
decorator with strictly positive notification probability can notify. -/
def Model.canNotify : Model → Bool
  | .plain _ => false
  | .notified _ u _ => decide (0 < u)

/-- The domain invariant of the spec (§3): λ, ψ ≥ 0 and p ∈ [0,1] for the
base model; υ ∈ [0,1] and φ ≥ 0 for the decorator. -/
def Model.valid : Model → Bool
  | .plain bd => decide (0 ≤ bd.la ∧ 0 ≤ bd.psi ∧ 0 ≤ bd.p ∧ bd.p ≤ 1)
  | .notified base u ph => base.valid && decide (0 ≤ u ∧ u ≤ 1 ∧ 0 ≤ ph)

/-- Modelled from the spec: `treesimulator.mtbd_models.BirthDeathModel` is not
under `src/`. Per §4.1/§7, construction with λ<0, ψ<0 or p outside [0,1]
fails with `InvalidParameter`; otherwise it yields the plain model record. -/
def BirthDeathModel (p la psi : ℚ) (n_recipients : List ℚ) :
    Except SimError Model :=
  if 0 ≤ la ∧ 0 ≤ psi ∧ 0 ≤ p ∧ p ≤ 1 then
    .ok (.plain ⟨p, la, psi, n_recipients⟩)
  else
    .error .InvalidParameter

/-- Modelled from the spec: `treesimulator.mtbd_models.CTModel` is not under
`src/`. Per §3/§7 the decorator requires υ ∈ [0,1] and φ ≥ 0, failing with
`InvalidParameter` otherwise; it composes with (never replaces) the base. -/
def CTModel (model : Model) (upsilon phi : ℚ) : Except SimError Model :=
  if 0 ≤ upsilon ∧ upsilon ≤ 1 ∧ 0 ≤ phi then
    .ok (.notified model upsilon phi)
  else
    .error .InvalidParameter

/-- The CLI parameters consumed by `main` that influence the computation
(output paths and verbosity only affect I/O collaborators and are omitted).
`T = none` embeds the default `np.inf` sentinel. Defaults follow the argparse
declarations in `src/simulate_forest_bd_skyline.py` lines 20-52. -/
structure Params where
  min_tips : ℕ
  max_tips : ℕ
  T : Option ℚ
  la : List ℚ
  psi : List ℚ
  p : List ℚ
  times : List ℚ
  upsilon : ℚ
  max_notified_contacts : ℕ
  avg_recipients : ℚ
  phi : ℚ
deriving DecidableEq, Repr

/-- The argparse default for `--avg_recipients` (line 48 of the source). -/
def default_avg_recipients : ℚ := 1

/-- `num_intervals = min(len(la), len(psi), len(p), len(times))`
(line 73 of the source). -/
def numIntervals (params : Params) : ℕ :=
  min (min (min params.la.length params.psi.length) params.p.length)
    params.times.length

/-- Embeds the Python pattern `xs[i] if i < len(xs) else xs[-1]`
(lines 76-79 of the source). On an empty list Python's `xs[-1]` raises;
the embedding returns 0 there, a case the loop bound makes unreachable. -/
def pyIndexFallback (xs : List ℚ) (i : ℕ) : ℚ :=
  if i < xs.length then xs.getD i 0 else xs.getLastD 0

/-- One iteration of the model-construction loop (lines 75-89 of the
source): build the `BirthDeathModel` from the `i`-th parameters, then wrap it
in a `CTModel` exactly when `params.upsilon and params.upsilon > 0`. -/
def buildModel (params : Params) (i : ℕ) : Except SimError Model :=
  let la := pyIndexFallback params.la i
  let psi := pyIndexFallback params.psi i
  let p := pyIndexFallback params.p i
  match BirthDeathModel p la psi [params.avg_recipients] with
  | .error e => .error e
  | .ok model =>
    if params.upsilon ≠ 0 ∧ 0 < params.upsilon then
      CTModel model params.upsilon params.phi
    else
      .ok model

/-- Sequentially builds the models for the given interval indices,
propagating the first construction failure (the Python loop would raise at
the failing iteration). -/
def buildModelsAux (params : Params) : List ℕ → Except SimError (List Model)
  | [] => .ok []
  | i :: is =>
    match buildModel params i with
    | .error e => .error e
    | .ok m =>
      match buildModelsAux params is with
      | .error e => .error e
      | .ok ms => .ok (m :: ms)

/-- The full model-construction loop of `main` (lines 69-91): the parallel
`models` and `skyline_times` lists accumulated over
`i in range(num_intervals)`. -/
def buildModelsTimes (params : Params) :
    Except SimError (List Model × List ℚ) :=
  match buildModelsAux params (List.range (numIntervals params)) with
  | .error e => .error e
  | .ok ms =>
    .ok (ms, (List.range (numIntervals params)).map (pyIndexFallback params.times))

/-- One finalized simulated tree (named `SimTree`; `Tree` is taken by the
ambient library), summarized by its observed (sampled) tip count and its
unsampled-termination count (spec §3, "Forest"). -/
structure SimTree where
  tips : ℕ
  unsampled : ℕ
deriving DecidableEq, Repr

/-- A candidate forest as produced by one independent simulation attempt of
the event engine: its trees, the realized elapsed simulation time, and the
lineage-through-time trajectory (spec §3, §6). -/
structure Forest where
  trees : List SimTree
  realizedTime : ℚ
  ltt : List (ℚ × ℕ)
deriving DecidableEq, Repr

/-- Total observed tip count of a forest. -/
def Forest.totalTips (f : Forest) : ℕ := (f.trees.map SimTree.tips).sum

/-- Total unsampled-termination count of a forest. -/
def Forest.totalUnsampled (f : Forest) : ℕ :=
  (f.trees.map SimTree.unsampled).sum

/-- Modelled from the spec: `treesimulator.generator_skyline.generate` is not
under `src/`. Per §4.4 and §5, each retry is a fully independent draw of the
event engine under the given models/skyline schedule; the random stream is
therefore embedded as the sequence of candidate forests the successive
attempts would produce. The controller rejects candidates until the total
observed tip count lies in the closed range [minTips, maxTips] and returns
the first accepted forest with its summary triple
(total tips, unsampled count, realized time); `none` embeds an exhausted
stream (the real loop retries indefinitely). -/
def generate (models : List Model) (minTips maxTips : ℕ) (T : Option ℚ)
    (skylineTimes : List ℚ) (maxNotifiedContacts : ℕ)
    (stream : List Forest) : Option (Forest × (ℕ × ℕ × ℚ)) :=
  match stream.find?
      (fun f => decide (minTips ≤ f.totalTips ∧ f.totalTips ≤ maxTips)) with
  | some f => some (f, (f.totalTips, f.totalUnsampled, f.realizedTime))
  | none => none

/-- What `main` computes after `generate` returns (lines 96-106 of the
source): the forest, the unpacked summary triple `(total_tips, u, T)`, and
the model passed to `save_log` — `models[-1]`, per line 103 (`logModel` is
`none` exactly when `models` is empty and Python's `models[-1]` would
raise). -/
structure MainResult where
  forest : Forest
  total_tips : ℕ
  u : ℕ
  T : ℚ
  logModel : Option Model
deriving DecidableEq, Repr

/-- The computational pipeline of `main` (lines 69-103 of the source):
build the parallel `models`/`skyline_times` lists, call `generate`, and
record what is forwarded to `save_log`. File output and logging text are
I/O collaborators outside the core and are not modelled. -/
def mainRun (params : Params) (stream : List Forest) :
    Except SimError (Option MainResult) :=
  match buildModelsTimes params with
  | .error e => .error e
  | .ok (models, skyline_times) =>
    match generate models params.min_tips params.max_tips params.T
        skyline_times params.max_notified_contacts stream with
    | some (forest, (total_tips, u, T)) =>
      .ok (some ⟨forest, total_tips, u, T, models.getLast?⟩)
    | none => .ok none

/-- The list of models whose rate parameters `main` exposes to the log
writer `save_log` (line 103 passes the single model `models[-1]`). -/
def loggedModels (r : MainResult) : List Model := r.logModel.toList

/-- The mutable per-lineage simulation state (spec §3, "Lineage State"):
current absolute time `t` and the index `i` of the skyline interval
governing the lineage. -/
structure LinState where
  t : ℚ
  i : ℕ
deriving DecidableEq, Repr

/-- An entry of a single lineage's event trace: a birth at the given
absolute time, a removal (with its Bernoulli sampling outcome), a no-event
advance to a skyline boundary (`switch`), finalization at the global time
horizon (`prunedT`), or an eternal wait when no event type can ever fire
and no boundary or horizon remains (`stalled`). -/
inductive Ev where
  | birth (t : ℚ)
  | removal (t : ℚ) (sampled : Bool)
  | switch (t : ℚ)
  | prunedT (t : ℚ)
  | stalled
deriving DecidableEq, Repr

/-- Placeholder model used for the (unreachable) out-of-range interval
lookup; its rates are zero, so it can fire no event. -/
def dummyModel : Model := .plain ⟨1, 0, 0, [1]⟩

/-- The competing-exponential race of one step under model `m`: the waiting
time for birth (rate λ) and removal (rate ψ), where a rate-0 event type
never fires (infinite waiting time, §4.3 numeric semantics) and a
positive-rate wait is the fresh unit-exponential quantile of the draw `d`
scaled by 1/rate. Returns the earlier finite wait and whether it is a birth
(`none` when neither event type can ever fire). -/
def raceOf (m : Model) (d : ℚ × ℚ × ℚ) : Option (ℚ × Bool) :=
  let waitB : Option ℚ := if m.la = 0 then none else some (d.1 / m.la)
  let waitR : Option ℚ := if m.psi = 0 then none else some (d.2.1 / m.psi)
  match waitB, waitR with
  | none, none => none
  | some wb, none => some (wb, true)
  | none, some wr => some (wr, false)
  | some wb, some wr => if wb ≤ wr then some (wb, true) else some (wr, false)

/-- The next skyline boundary ahead of a lineage in interval `i`: the `i`-th
switch time, or none when interval `i` is the last (open-ended). -/
def boundaryOf (models : List Model) (times : List ℚ) (i : ℕ) : Option ℚ :=
  if i + 1 < models.length then some (times.getD i 0) else none

/-- Whether a proposed event at time `te` fires before both the next
boundary and the global horizon (a missing bound never blocks it). -/
def firesBefore (te : ℚ) (boundary T : Option ℚ) : Bool :=
  match boundary, T with
  | some b, some tEnd => decide (te < b ∧ te < tEnd)
  | some b, none => decide (te < b)
  | none, some tEnd => decide (te < tEnd)
  | none, none => true

/-- The no-event outcome of a step: the lineage advances to whichever of
the boundary/horizon comes first — at a boundary it switches to the next
interval (re-entering the race under the new model with fresh draws), at
the horizon it is finalized (`PRUNED_AT_TIME_LIMIT`); with neither it
waits forever. -/
def noEventOf (boundary T : Option ℚ) (st : LinState) : Ev × Option LinState :=
  match boundary, T with
  | some b, some tEnd =>
    if tEnd ≤ b then (.prunedT tEnd, none)
    else (.switch b, some ⟨b, st.i + 1⟩)
  | some b, none => (.switch b, some ⟨b, st.i + 1⟩)
  | none, some tEnd => (.prunedT tEnd, none)
  | none, none => (.stalled, none)

/-- Modelled from the spec: the event engine's per-lineage step (§4.3) is in
`treesimulator.generator_skyline`, not under `src/`. One step for an alive
lineage: run the competing-exponential race under the CURRENT interval's
model; the winning wait proposes the event, unless its time reaches the next
skyline boundary or the horizon `T`, in which case the lineage instead
advances there with no event — crossing a boundary restarts the race under
the next interval's model with fresh draws (§4.2). The draw `d` carries the
two unit-exponential quantiles and the uniform for the removal-sampling
Bernoulli coin. Returns the trace event and the lineage's next state
(`none` when the lineage terminated). -/
def lineageStep (models : List Model) (times : List ℚ) (T : Option ℚ)
    (st : LinState) (d : ℚ × ℚ × ℚ) : Ev × Option LinState :=
  let m := models.getD st.i dummyModel
  match raceOf m d with
  | some (w, isBirth) =>
    let te := st.t + w
    if firesBefore te (boundaryOf models times st.i) T then
      if isBirth then (.birth te, some ⟨te, st.i⟩)
      else (.removal te (decide (d.2.2 < m.p)), none)
    else noEventOf (boundaryOf models times st.i) T st
  | none => noEventOf (boundaryOf models times st.i) T st

/-- Modelled from the spec: runs one lineage through successive steps,
consuming one draw per step and stopping at termination or when the draw
stream is exhausted; returns the lineage's event trace. On a birth the
parent lineage keeps racing under the same state (§4.3 step 2); spawned
children are separate lineages whose own runs start from the birth state. -/
def lineageRun (models : List Model) (times : List ℚ) (T : Option ℚ) :
    LinState → List (ℚ × ℚ × ℚ) → List Ev
  | _, [] => []
  | st, d :: ds =>
    match lineageStep models times T st d with
    | (ev, none) => [ev]
    | (ev, some st') => ev :: lineageRun models times T st' ds

theorem BirthDeathModel_ok (p la psi : ℚ) (nr : List ℚ) (m : Model)
    (h : BirthDeathModel p la psi nr = .ok m) :
    m = .plain ⟨p, la, psi, nr⟩ ∧ 0 ≤ la ∧ 0 ≤ psi ∧ 0 ≤ p ∧ p ≤ 1 := by
  unfold BirthDeathModel at h
  split at h
  next hc => exact ⟨(Except.ok.inj h).symm, hc.1, hc.2.1, hc.2.2.1, hc.2.2.2⟩
  next hc => exact Except.noConfusion h

theorem BirthDeathModel_err (p la psi : ℚ) (nr : List ℚ) (e : SimError)
    (h : BirthDeathModel p la psi nr = .error e) : e = .InvalidParameter := by
  unfold BirthDeathModel at h
  split at h
  next => exact Except.noConfusion h
  next => exact (Except.error.inj h).symm

theorem CTModel_ok (m : Model) (u ph : ℚ) (m' : Model)
    (h : CTModel m u ph = .ok m') :
    m' = .notified m u ph ∧ 0 ≤ u ∧ u ≤ 1 ∧ 0 ≤ ph := by
  unfold CTModel at h
  split at h
  next hc => exact ⟨(Except.ok.inj h).symm, hc.1, hc.2.1, hc.2.2⟩
  next => exact Except.noConfusion h

theorem CTModel_err (m : Model) (u ph : ℚ) (e : SimError)
    (h : CTModel m u ph = .error e) : e = .InvalidParameter := by
  unfold CTModel at h
  split at h
  next => exact Except.noConfusion h
  next => exact (Except.error.inj h).symm

theorem buildModel_err (params : Params) (i : ℕ) (e : SimError)
    (h : buildModel params i = .error e) : e = .InvalidParameter := by
  simp only [buildModel] at h
  split at h
  next e' hbd =>
    cases h
    exact BirthDeathModel_err _ _ _ _ _ hbd
  next model hbd =>
    split at h
    · exact CTModel_err _ _ _ _ h
    · exact Except.noConfusion h

theorem buildModel_ok_valid (params : Params) (i : ℕ) (m : Model)
    (h : buildModel params i = .ok m) : m.valid = true := by
  simp only [buildModel] at h
  split at h
  next e' hbd => exact Except.noConfusion h
  next model hbd =>
    obtain ⟨hm, hla, hpsi, hp0, hp1⟩ := BirthDeathModel_ok _ _ _ _ _ hbd
    have hbase : model.valid = true := by
      subst hm; simp [Model.valid, hla, hpsi, hp0, hp1]
    split at h
    · obtain ⟨hm', hu0, hu1, hph⟩ := CTModel_ok _ _ _ _ h
      subst hm'; simp [Model.valid, hbase, hu0, hu1, hph]
    · exact (Except.ok.inj h) ▸ hbase

theorem buildModel_ok_recipients (params : Params) (i : ℕ) (m : Model)
    (h : buildModel params i = .ok m) :
    m.recipients = [params.avg_recipients] := by
  simp only [buildModel] at h
  split at h
  next e' hbd => exact Except.noConfusion h
  next model hbd =>
    obtain ⟨hm, -⟩ := BirthDeathModel_ok _ _ _ _ _ hbd
    have hbase : model.recipients = [params.avg_recipients] := by
      subst hm; rfl
    split at h
    · obtain ⟨hm', -⟩ := CTModel_ok _ _ _ _ h
      subst hm'; simpa [Model.recipients] using hbase
    · exact (Except.ok.inj h) ▸ hbase

theorem buildModelsAux_err (params : Params) (l : List ℕ) (e : SimError)
    (h : buildModelsAux params l = .error e) : e = .InvalidParameter := by
  induction l with
  | nil => exact Except.noConfusion h
  | cons i is ih =>
    unfold buildModelsAux at h
    split at h
    next e' hm =>
      cases h
      exact buildModel_err _ _ _ hm
    next m hm =>
      split at h
      next e' hms =>
        cases h
        exact ih hms
      next ms hms => exact Except.noConfusion h

theorem buildModelsAux_length (params : Params) (l : List ℕ) (ms : List Model)
    (h : buildModelsAux params l = .ok ms) : ms.length = l.length := by
  induction l generalizing ms with
  | nil =>
    have : ms = [] := (Except.ok.inj h).symm
    simp [this]
  | cons i is ih =>
    unfold buildModelsAux at h
    split at h
    next e' hm => exact Except.noConfusion h
    next m hm =>
      split at h
      next e' hms => exact Except.noConfusion h
      next ms' hms =>
        have hcons : m :: ms' = ms := Except.ok.inj h
        subst hcons
        simp [ih ms' hms]

theorem buildModelsAux_mem (params : Params) (l : List ℕ) (ms : List Model)
    (h : buildModelsAux params l = .ok ms) :
    ∀ m ∈ ms, ∃ i ∈ l, buildModel params i = .ok m := by
  induction l generalizing ms with
  | nil =>
    have : ms = [] := (Except.ok.inj h).symm
    simp [this]
  | cons i is ih =>
    unfold buildModelsAux at h
    split at h
    next e' hm => exact Except.noConfusion h
    next m hm =>
      split at h
      next e' hms => exact Except.noConfusion h
      next ms' hms =>
        have hcons : m :: ms' = ms := Except.ok.inj h
        subst hcons
        intro x hx
        rcases List.mem_cons.mp hx with hx | hx
        · exact ⟨i, List.mem_cons_self i is, hx ▸ hm⟩
        · obtain ⟨j, hj, hbj⟩ := ih ms' hms x hx
          exact ⟨j, List.mem_cons_of_mem i hj, hbj⟩

theorem buildModelsTimes_ok (params : Params) (ms : List Model) (ts : List ℚ)
    (h : buildModelsTimes params = .ok (ms, ts)) :
    buildModelsAux params (List.range (numIntervals params)) = .ok ms ∧
    ts = (List.range (numIntervals params)).map (pyIndexFallback params.times) := by
  unfold buildModelsTimes at h
  split at h
  next e' hms => exact Except.noConfusion h
  next ms' hms =>
    have hp := Except.ok.inj h
    have h1 : ms' = ms := congrArg Prod.fst hp
    have h2 := congrArg Prod.snd hp
    exact ⟨h1 ▸ hms, h2.symm⟩

theorem buildModelsTimes_err (params : Params) (e : SimError)
    (h : buildModelsTimes params = .error e) : e = .InvalidParameter := by
  unfold buildModelsTimes at h
  split at h
  next e' hms =>
    cases h
    exact buildModelsAux_err _ _ _ hms
  next ms' hms => exact Except.noConfusion h

theorem generate_some_triple (models : List Model) (minTips maxTips : ℕ)
    (T : Option ℚ) (skylineTimes : List ℚ) (maxNotifiedContacts : ℕ)
    (stream : List Forest) (f : Forest) (s : ℕ × ℕ × ℚ)
    (h : generate models minTips maxTips T skylineTimes maxNotifiedContacts
      stream = some (f, s)) :
    s = (f.totalTips, f.totalUnsampled, f.realizedTime) := by
  unfold generate at h
  split at h
  next g hg =>
    have hp := Option.some.inj h
    rw [Prod.mk.injEq] at hp
    rw [← hp.2, hp.1]
  next => exact Option.noConfusion h

/-- Claim C1: every forest returned by the assembly controller `generate`
satisfies `minTips ≤ totalTips ≤ maxTips`, and with `T` infinite and
`minTips = maxTips` the tip count equals that common bound exactly. -/
theorem generate_within_bounds (models : List Model) (minTips maxTips : ℕ)
    (T : Option ℚ) (skylineTimes : List ℚ) (maxNotifiedContacts : ℕ)
    (stream : List Forest) (f : Forest) (s : ℕ × ℕ × ℚ)
    (h : generate models minTips maxTips T skylineTimes maxNotifiedContacts
      stream = some (f, s)) :
    (minTips ≤ f.totalTips ∧ f.totalTips ≤ maxTips) ∧
    (T = none → minTips = maxTips → f.totalTips = minTips) := by
  unfold generate at h
  split at h
  next g hg =>
    have hpred := List.find?_some hg
    have hfg : g = f := congrArg Prod.fst (Option.some.inj h)
    subst hfg
    simp only [decide_eq_true_eq] at hpred
    refine ⟨hpred, fun _ heq => ?_⟩
    omega
  next => exact Option.noConfusion h

/-- One accepted candidate forest used in concrete runs: one tree with 5
observed tips and 2 unsampled terminations, realized time 7. -/
def exForest : Forest := ⟨[⟨5, 2⟩], 7, []⟩

/-- A concrete attempt stream whose first candidate (99 tips) violates the
bounds of the examples and is rejected, and whose second is `exForest`. -/
def exStream : List Forest := [⟨[⟨99, 0⟩], 1, []⟩, exForest]

theorem generate_within_bounds_witness :
    (5 ≤ exForest.totalTips ∧ exForest.totalTips ≤ 5) ∧
    ((none : Option ℚ) = none → 5 = 5 → exForest.totalTips = 5) :=
  generate_within_bounds [] 5 5 none [] 1 exStream exForest (5, 2, 7) (by rfl)

/-- Claim C6: the generation pipeline is a pure function of the parameters
and the random-number stream: two runs on identical parameters and identical
streams return identical results (in particular identical forests). -/
theorem runs_deterministic (params1 params2 : Params)
    (stream1 stream2 : List Forest)
    (hp : params1 = params2) (hs : stream1 = stream2) :
    mainRun params1 stream1 = mainRun params2 stream2 := by
  subst hp; subst hs; rfl

/-- Parameters of a two-interval skyline with distinct models and υ = 0
(the interval lists all have length 2). -/
def skyline2Params : Params :=
  ⟨5, 5, none, [2/5, 1/2], [1/10, 1/5], [1/2, 3/5], [2, 5], 0, 1, 1, 0⟩

theorem runs_deterministic_witness :
    mainRun skyline2Params exStream = mainRun skyline2Params exStream :=
  runs_deterministic skyline2Params skyline2Params exStream exStream rfl rfl

/-- The model of the first skyline interval of `skyline2Params`. -/
def modelA : Model := .plain ⟨1/2, 2/5, 1/10, [1]⟩

/-- The model of the second skyline interval of `skyline2Params`. -/
def modelB : Model := .plain ⟨3/5, 1/2, 1/5, [1]⟩

/-- Claim C9: whenever `i < num_intervals`, all four list lookups of the
model-construction loop are in bounds, so each model is built from exactly
the `i`-th element of each list and the `else` fallbacks that would reuse
the last element are unreachable. -/
theorem indexing_in_bounds (params : Params) (i : ℕ)
    (hi : i < numIntervals params) :
    (i < params.la.length ∧ i < params.psi.length ∧ i < params.p.length ∧
      i < params.times.length) ∧
    pyIndexFallback params.la i = params.la.getD i 0 ∧
    pyIndexFallback params.psi i = params.psi.getD i 0 ∧
    pyIndexFallback params.p i = params.p.getD i 0 ∧
    pyIndexFallback params.times i = params.times.getD i 0 := by
  unfold numIntervals at hi
  have hla : i < params.la.length := by omega
  have hpsi : i < params.psi.length := by omega
  have hp : i < params.p.length := by omega
  have ht : i < params.times.length := by omega
  refine ⟨⟨hla, hpsi, hp, ht⟩, ?_, ?_, ?_, ?_⟩ <;>
    simp [pyIndexFallback, hla, hpsi, hp, ht]

theorem indexing_in_bounds_witness :
    ((0 < skyline2Params.la.length ∧ 0 < skyline2Params.psi.length ∧
      0 < skyline2Params.p.length ∧ 0 < skyline2Params.times.length) ∧
    pyIndexFallback skyline2Params.la 0 = skyline2Params.la.getD 0 0 ∧
    pyIndexFallback skyline2Params.psi 0 = skyline2Params.psi.getD 0 0 ∧
    pyIndexFallback skyline2Params.p 0 = skyline2Params.p.getD 0 0 ∧
    pyIndexFallback skyline2Params.times 0 = skyline2Params.times.getD 0 0) :=
  indexing_in_bounds skyline2Params 0 (by decide)

/-- Claim C10: the `models` and `skyline_times` lists handed to `generate`
are always parallel, each of length
`min(len(la), len(psi), len(p), len(times))`; mismatched input lengths are
silently truncated to the shortest, never rejected. -/
theorem models_times_parallel (params : Params) :
    buildModelsTimes params ≠ .error .ConfigurationMismatch ∧
    ∀ ms ts, buildModelsTimes params = .ok (ms, ts) →
      ms.length = numIntervals params ∧ ts.length = numIntervals params := by
  constructor
  · intro h
    have := buildModelsTimes_err _ _ h
    exact SimError.noConfusion this
  · intro ms ts h
    obtain ⟨hms, hts⟩ := buildModelsTimes_ok _ _ _ h
    constructor
    · simpa using buildModelsAux_length _ _ _ hms
    · simp [hts]

theorem skyline2_models_times :
    buildModelsTimes skyline2Params = .ok ([modelA, modelB], [2, 5]) := by
  norm_num [buildModelsTimes, buildModelsAux, buildModel, BirthDeathModel,
    numIntervals, pyIndexFallback, skyline2Params, modelA, modelB,
    List.range_succ]

theorem models_times_parallel_witness :
    buildModelsTimes skyline2Params ≠ .error .ConfigurationMismatch ∧
    [modelA, modelB].length = numIntervals skyline2Params ∧
    [(2 : ℚ), 5].length = numIntervals skyline2Params :=
  ⟨(models_times_parallel skyline2Params).1,
   ((models_times_parallel skyline2Params).2 [modelA, modelB] [(2 : ℚ), 5]
     skyline2_models_times).1,
   ((models_times_parallel skyline2Params).2 [modelA, modelB] [(2 : ℚ), 5]
     skyline2_models_times).2⟩

/-- Parameters whose λ list (length 2) disagrees with the ψ, p and times
lists (length 3) — the default CLI lists with the last λ entry missing. -/
def mismatchedParams : Params :=
  ⟨5, 5, none, [2/5, 1/2], [1/10, 1/5, 3/10], [1/2, 3/5, 7/10], [2, 5, 10],
    0, 1, 1, 0⟩

/-- Claim C3 (counterexample): on parameter lists of unequal lengths the
program does not fail with `ConfigurationMismatch`: the run completes and
returns an accepted forest (so a simulation was executed on the
mismatched-length input). -/
theorem config_mismatch_cex :
    mismatchedParams.la.length ≠ mismatchedParams.times.length ∧
    mainRun mismatchedParams exStream =
      .ok (some ⟨exForest, 5, 2, 7, some (.plain ⟨3/5, 1/2, 1/5, [1]⟩)⟩) := by
  constructor
  · decide
  · norm_num [mainRun, buildModelsTimes, buildModelsAux, buildModel,
      BirthDeathModel, numIntervals, pyIndexFallback, mismatchedParams,
      generate, exStream, exForest, List.range_succ, List.find?,
      Forest.totalTips, Forest.totalUnsampled]

/-- Claim C3 (amended): mismatched list lengths are not rejected — the loop
truncates to the shortest length and the simulation proceeds; on no input
does the pipeline fail with `ConfigurationMismatch`. -/
theorem config_mismatch_never_raised (params : Params)
    (stream : List Forest) :
    mainRun params stream ≠ .error .ConfigurationMismatch := by
  intro h
  unfold mainRun at h
  split at h
  next e hbt =>
    cases h
    have := buildModelsTimes_err _ _ hbt
    exact SimError.noConfusion this
  next models skyline_times hbt =>
    split at h
    next => exact Except.noConfusion h
    next => exact Except.noConfusion h

/-- Claim C4: constructing a rate model with λ<0 or ψ<0 or p outside [0,1],
or a decorator with υ outside [0,1] or φ<0, fails with `InvalidParameter`;
and every model in the list the main loop hands to the simulation satisfies
the domain invariant (no invalid model is ever used). -/
theorem invalid_parameters_rejected (p la psi : ℚ) (nr : List ℚ)
    (base : Model) (u ph : ℚ) (params : Params)
    (hbd : la < 0 ∨ psi < 0 ∨ p < 0 ∨ 1 < p)
    (hct : u < 0 ∨ 1 < u ∨ ph < 0) :
    BirthDeathModel p la psi nr = .error .InvalidParameter ∧
    CTModel base u ph = .error .InvalidParameter ∧
    ∀ ms ts, buildModelsTimes params = .ok (ms, ts) →
      ∀ m ∈ ms, m.valid = true := by
  refine ⟨?_, ?_, ?_⟩
  · unfold BirthDeathModel
    split
    next hc =>
      rcases hbd with h | h | h | h <;>
        linarith [hc.1, hc.2.1, hc.2.2.1, hc.2.2.2]
    next => rfl
  · unfold CTModel
    split
    next hc =>
      rcases hct with h | h | h <;>
        linarith [hc.1, hc.2.1, hc.2.2]
    next => rfl
  · intro ms ts hok m hm
    obtain ⟨hms, -⟩ := buildModelsTimes_ok _ _ _ hok
    obtain ⟨i, -, hbi⟩ := buildModelsAux_mem _ _ _ hms m hm
    exact buildModel_ok_valid _ _ _ hbi

theorem invalid_parameters_rejected_witness :
    BirthDeathModel (1/2) (-1) (1/10) [1] = .error .InvalidParameter ∧
    CTModel modelA 2 0 = .error .InvalidParameter ∧
    modelA.valid = true := by
  obtain ⟨h1, h2, h3⟩ :=
    invalid_parameters_rejected (1/2) (-1) (1/10) [1] modelA 2 0 skyline2Params
      (by norm_num) (by norm_num)
  exact ⟨h1, h2, h3 [modelA, modelB] [2, 5] skyline2_models_times modelA
    (List.mem_cons_self modelA [modelB])⟩

/-- Claim C5: when υ = 0 the decorator branch of the main loop is never
taken: each constructed model is exactly the plain `BirthDeathModel`, so
every model handed to the simulation is undecorated and no notification
event is possible. -/
theorem upsilon_zero_plain (params : Params) (hu : params.upsilon = 0) :
    (∀ i, buildModel params i =
      BirthDeathModel (pyIndexFallback params.p i)
        (pyIndexFallback params.la i) (pyIndexFallback params.psi i)
        [params.avg_recipients]) ∧
    ∀ ms ts, buildModelsTimes params = .ok (ms, ts) →
      ∀ m ∈ ms, m.isPlain = true ∧ m.canNotify = false := by
  have hstep : ∀ i, buildModel params i =
      BirthDeathModel (pyIndexFallback params.p i)
        (pyIndexFallback params.la i) (pyIndexFallback params.psi i)
        [params.avg_recipients] := by
    intro i
    simp only [buildModel, hu]
    cases hbd : BirthDeathModel (pyIndexFallback params.p i)
        (pyIndexFallback params.la i) (pyIndexFallback params.psi i)
        [params.avg_recipients] with
    | error e => rfl
    | ok m => simp
  refine ⟨hstep, ?_⟩
  intro ms ts hok m hm
  obtain ⟨hms, -⟩ := buildModelsTimes_ok _ _ _ hok
  obtain ⟨i, -, hbi⟩ := buildModelsAux_mem _ _ _ hms m hm
  rw [hstep i] at hbi
  obtain ⟨hmp, -⟩ := BirthDeathModel_ok _ _ _ _ _ hbi
  subst hmp
  exact ⟨rfl, rfl⟩

theorem upsilon_zero_plain_witness :
    (buildModel skyline2Params 0 =
      BirthDeathModel (pyIndexFallback skyline2Params.p 0)
        (pyIndexFallback skyline2Params.la 0)
        (pyIndexFallback skyline2Params.psi 0)
        [skyline2Params.avg_recipients]) ∧
    modelA.isPlain = true ∧ modelA.canNotify = false :=
  ⟨(upsilon_zero_plain skyline2Params rfl).1 0,
   (upsilon_zero_plain skyline2Params rfl).2 [modelA, modelB] [2, 5]
     skyline2_models_times modelA (List.mem_cons_self modelA [modelB])⟩

/-- Claim C8: with the default `--avg_recipients` value 1, every model the
main loop constructs carries the single-recipient distribution `[1]`. -/
theorem default_single_recipient (params : Params)
    (h : params.avg_recipients = default_avg_recipients) :
    ∀ ms ts, buildModelsTimes params = .ok (ms, ts) →
      ∀ m ∈ ms, m.recipients = [1] := by
  intro ms ts hok m hm
  obtain ⟨hms, -⟩ := buildModelsTimes_ok _ _ _ hok
  obtain ⟨i, -, hbi⟩ := buildModelsAux_mem _ _ _ hms m hm
  have hr := buildModel_ok_recipients _ _ _ hbi
  rw [hr, h]
  rfl

theorem default_single_recipient_witness : modelA.recipients = [1] :=
  default_single_recipient skyline2Params rfl [modelA, modelB] [2, 5]
    skyline2_models_times modelA (List.mem_cons_self modelA [modelB])

/-- Claim C7 (counterexample): under the two-interval schedule both `modelA`
and `modelB` govern the simulation, but the log writer receives only
`models[-1] = modelB`: the first interval's rate parameters are absent from
the logged models. -/
theorem log_omits_governing_model_cex :
    mainRun skyline2Params exStream =
      .ok (some ⟨exForest, 5, 2, 7, some modelB⟩) ∧
    loggedModels ⟨exForest, 5, 2, 7, some modelB⟩ = [modelB] ∧
    modelA ≠ modelB ∧
    loggedModels ⟨exForest, 5, 2, 7, some modelB⟩ ≠ [modelA, modelB] := by
  refine ⟨?_, rfl, by norm_num [modelA, modelB], by norm_num [loggedModels, modelA, modelB]⟩
  norm_num [mainRun, buildModelsTimes, buildModelsAux, buildModel,
    BirthDeathModel, numIntervals, pyIndexFallback, skyline2Params,
    generate, exStream, exForest, modelB, List.range_succ, List.find?,
    Forest.totalTips, Forest.totalUnsampled]

/-- Claim C7 (amended): the summary triple `(total_tips, u, T)` returned by
`generate` is exposed to the log writer together with the rate parameters of
the LAST model only (`models[-1]`), and the triple is exactly the accepted
forest's observed-tip count, unsampled count and realized time. -/
theorem log_receives_triple_and_last_model (params : Params)
    (stream : List Forest) (r : MainResult) (ms : List Model) (ts : List ℚ)
    (hok : mainRun params stream = .ok (some r))
    (hbt : buildModelsTimes params = .ok (ms, ts)) :
    r.logModel = ms.getLast? ∧ r.total_tips = r.forest.totalTips ∧
    r.u = r.forest.totalUnsampled ∧ r.T = r.forest.realizedTime := by
  unfold mainRun at hok
  split at hok
  next e hbt2 => exact Except.noConfusion hok
  next models skyline_times hbt2 =>
    rw [hbt] at hbt2
    have hpair := Except.ok.inj hbt2
    have hmodels : ms = models := congrArg Prod.fst hpair
    split at hok
    next forest total_tips u T hgen =>
      have hr := Option.some.inj (Except.ok.inj hok)
      have htriple := generate_some_triple _ _ _ _ _ _ _ _ _ hgen
      simp only [Prod.mk.injEq] at htriple
      subst hr
      exact ⟨by rw [hmodels], htriple.1, htriple.2.1, htriple.2.2⟩
    next hgen => exact Option.noConfusion (Except.ok.inj hok)

theorem log_receives_triple_witness :
    (⟨exForest, 5, 2, 7, some modelB⟩ : MainResult).logModel =
      [modelA, modelB].getLast? ∧
    (⟨exForest, 5, 2, 7, some modelB⟩ : MainResult).total_tips =
      (⟨exForest, 5, 2, 7, some modelB⟩ : MainResult).forest.totalTips ∧
    (⟨exForest, 5, 2, 7, some modelB⟩ : MainResult).u =
      (⟨exForest, 5, 2, 7, some modelB⟩ : MainResult).forest.totalUnsampled ∧
    (⟨exForest, 5, 2, 7, some modelB⟩ : MainResult).T =
      (⟨exForest, 5, 2, 7, some modelB⟩ : MainResult).forest.realizedTime := by
  refine log_receives_triple_and_last_model skyline2Params exStream
    ⟨exForest, 5, 2, 7, some modelB⟩ [modelA, modelB] [2, 5] ?_
    skyline2_models_times
  norm_num [mainRun, buildModelsTimes, buildModelsAux, buildModel,
    BirthDeathModel, numIntervals, pyIndexFallback, skyline2Params,
    generate, exStream, exForest, modelB, List.range_succ, List.find?,
    Forest.totalTips, Forest.totalUnsampled]

theorem raceOf_la0 (m : Model) (d : ℚ × ℚ × ℚ) (h1 : m.la = 0) :
    raceOf m d = none ∨ ∃ wr, raceOf m d = some (wr, false) := by
  by_cases hpsi : m.psi = 0
  · left; simp [raceOf, h1, hpsi]
  · right; exact ⟨d.2.1 / m.psi, by simp [raceOf, h1, hpsi]⟩

theorem lineageStep_interval0 (m1 m2 : Model) (b t : ℚ) (d : ℚ × ℚ × ℚ)
    (h1 : m1.la = 0) :
    (∃ te s, lineageStep [m1, m2] [b] none ⟨t, 0⟩ d = (.removal te s, none)) ∨
    lineageStep [m1, m2] [b] none ⟨t, 0⟩ d = (.switch b, some ⟨b, 1⟩) := by
  have hm : [m1, m2].getD (0:ℕ) dummyModel = m1 := rfl
  have hb : boundaryOf [m1, m2] [b] 0 = some b := rfl
  rcases raceOf_la0 m1 d h1 with hr | ⟨wr, hr⟩
  · right
    simp only [lineageStep, hm, hr, hb, noEventOf]
  · by_cases hfire : t + wr < b
    · left
      refine ⟨t + wr, decide (d.2.2 < m1.p), ?_⟩
      simp only [lineageStep, hm, hr, hb, firesBefore]
      simp [hfire]
    · right
      simp only [lineageStep, hm, hr, hb, firesBefore]
      simp [hfire, noEventOf]

theorem lineageStep_interval_ge1 (m1 m2 : Model) (b t : ℚ) (i : ℕ)
    (d : ℚ × ℚ × ℚ) (h2 : 0 < m2.la) (hd : 0 ≤ d.1) (hbt : b ≤ t)
    (ev : Ev) (rest : Option LinState)
    (hstep : lineageStep [m1, m2] [b] none ⟨t, i + 1⟩ d = (ev, rest)) :
    (∀ τ, ev = .birth τ → b ≤ τ) ∧
    (∀ st', rest = some st' → st'.i ≠ 0 ∧ b ≤ st'.t) := by
  have hb : boundaryOf [m1, m2] [b] (i + 1) = none := by
    simp [boundaryOf]
  cases i with
  | zero =>
    have hm : [m1, m2].getD (1:ℕ) dummyModel = m2 := rfl
    have hla : m2.la ≠ 0 := ne_of_gt h2
    have hwb : 0 ≤ d.1 / m2.la := div_nonneg hd (le_of_lt h2)
    have hble : b ≤ t + d.1 / m2.la := le_trans hbt (le_add_of_nonneg_right hwb)
    by_cases hpsi : m2.psi = 0
    · have hr : raceOf m2 d = some (d.1 / m2.la, true) := by
        simp [raceOf, hla, hpsi]
      simp only [lineageStep, hm, hr, hb, firesBefore, if_true] at hstep
      rw [Prod.mk.injEq] at hstep
      obtain ⟨hev, hrest⟩ := hstep
      constructor
      · intro τ hτ
        rw [← hev] at hτ
        have := Ev.birth.inj hτ
        rw [← this]
        exact hble
      · intro st' hst'
        rw [← hrest] at hst'
        have := Option.some.inj hst'
        rw [← this]
        exact ⟨Nat.succ_ne_zero 0, hble⟩
    · by_cases hrace : d.1 / m2.la ≤ d.2.1 / m2.psi
      · have hr : raceOf m2 d = some (d.1 / m2.la, true) := by
          simp [raceOf, hla, hpsi, hrace]
        simp only [lineageStep, hm, hr, hb, firesBefore, if_true] at hstep
        rw [Prod.mk.injEq] at hstep
        obtain ⟨hev, hrest⟩ := hstep
        constructor
        · intro τ hτ
          rw [← hev] at hτ
          have := Ev.birth.inj hτ
          rw [← this]
          exact hble
        · intro st' hst'
          rw [← hrest] at hst'
          have := Option.some.inj hst'
          rw [← this]
          exact ⟨Nat.succ_ne_zero 0, hble⟩
      · have hr : raceOf m2 d = some (d.2.1 / m2.psi, false) := by
          simp [raceOf, hla, hpsi, hrace]
        simp only [lineageStep, hm, hr, hb, firesBefore, if_true] at hstep
        rw [Prod.mk.injEq] at hstep
        obtain ⟨hev, hrest⟩ := hstep
        constructor
        · intro τ hτ
          rw [← hev] at hτ
          exact Ev.noConfusion hτ
        · intro st' hst'
          rw [← hrest] at hst'
          exact Option.noConfusion hst'
  | succ j =>
    have hm : [m1, m2].getD (j + 1 + 1) dummyModel = dummyModel := by
      simp [List.getD]
    have hr : raceOf dummyModel d = none := by
      simp [raceOf, dummyModel, Model.la, Model.psi]
    simp only [lineageStep, hm, hr, hb, noEventOf] at hstep
    rw [Prod.mk.injEq] at hstep
    obtain ⟨hev, hrest⟩ := hstep
    constructor
    · intro τ hτ
      rw [← hev] at hτ
      exact Ev.noConfusion hτ
    · intro st' hst'
      rw [← hrest] at hst'
      exact Option.noConfusion hst'

/-- Claim C2: a lineage alive at a skyline boundary has all later waiting
times drawn afresh under the model of the new interval — the race restarts
at every boundary crossing. In particular, under a two-interval schedule
with boundary `b`, λ₁ = 0 before `b` and λ₂ > 0 after, no birth event occurs
before `b` in any realization (any draw stream with nonnegative exponential
quantiles, from any start state in interval 0 or at time ≥ `b`). -/
theorem no_birth_before_boundary (m1 m2 : Model) (b : ℚ)
    (st : LinState) (draws : List (ℚ × ℚ × ℚ)) (τ : ℚ)
    (h1 : m1.la = 0) (h2 : 0 < m2.la)
    (hd : ∀ d ∈ draws, 0 ≤ d.1)
    (hst : st.i = 0 ∨ b ≤ st.t)
    (hmem : Ev.birth τ ∈ lineageRun [m1, m2] [b] none st draws) :
    b ≤ τ := by
  revert hd hst hmem
  induction draws generalizing st with
  | nil =>
    intro hd hst hmem
    simp [lineageRun] at hmem
  | cons d ds ih =>
    intro hd hst hmem
    have hd0 : 0 ≤ d.1 := hd d (List.mem_cons_self _ _)
    have hds : ∀ x ∈ ds, 0 ≤ x.1 := fun x hx => hd x (List.mem_cons_of_mem _ hx)
    obtain ⟨t, i⟩ := st
    cases i with
    | zero =>
      rcases lineageStep_interval0 m1 m2 b t d h1 with ⟨te, s, hstep⟩ | hstep
      · simp only [lineageRun, hstep] at hmem
        simp at hmem
      · simp only [lineageRun, hstep] at hmem
        rcases List.mem_cons.mp hmem with heq | hmem2
        · exact Ev.noConfusion heq
        · exact ih ⟨b, 1⟩ hds (Or.inr (le_refl b)) hmem2
    | succ j =>
      have hbt : b ≤ t := by
        rcases hst with h | h
        · exact absurd h (Nat.succ_ne_zero j)
        · exact h
      cases hstep : lineageStep [m1, m2] [b] none ⟨t, j + 1⟩ d with
      | mk ev rest =>
        obtain ⟨hbirth, hcont⟩ :=
          lineageStep_interval_ge1 m1 m2 b t j d h2 hd0 hbt ev rest hstep
        cases rest with
        | none =>
          simp only [lineageRun, hstep] at hmem
          exact hbirth τ (List.mem_singleton.mp hmem).symm
        | some st' =>
          simp only [lineageRun, hstep] at hmem
          rcases List.mem_cons.mp hmem with heq | hmem2
          · exact hbirth τ heq.symm
          · obtain ⟨hi, hbt'⟩ := hcont st' rfl
            exact ih st' hds (Or.inr hbt') hmem2

/-- A first-interval model with λ = 0 (no births possible before the
boundary). -/
def mC2a : Model := .plain ⟨1/2, 0, 1/10, [1]⟩

/-- A second-interval model with λ = 3/5 > 0. -/
def mC2b : Model := .plain ⟨1/2, 3/5, 1/10, [1]⟩

theorem no_birth_mem_example :
    Ev.birth (16/3) ∈
      lineageRun [mC2a, mC2b] [2] none ⟨0, 0⟩ [(1, 1, 0), (2, 1, 0)] := by
  norm_num [lineageRun, lineageStep, raceOf, boundaryOf, firesBefore,
    noEventOf, mC2a, mC2b, Model.la, Model.psi, Model.p, List.getD]

theorem no_birth_before_boundary_witness :
    mC2a.la = 0 ∧ 0 < mC2b.la ∧
    (∀ d ∈ [((1 : ℚ), (1 : ℚ), (0 : ℚ)), (2, 1, 0)], 0 ≤ d.1) ∧
    Ev.birth (16/3) ∈
      lineageRun [mC2a, mC2b] [2] none ⟨0, 0⟩ [(1, 1, 0), (2, 1, 0)] ∧
    (2 : ℚ) ≤ 16/3 :=
  ⟨rfl, by norm_num [mC2b, Model.la], by norm_num, no_birth_mem_example,
   no_birth_before_boundary mC2a mC2b 2 ⟨0, 0⟩ [(1, 1, 0), (2, 1, 0)] (16/3)
     rfl (by norm_num [mC2b, Model.la]) (by norm_num) (Or.inl rfl)
     no_birth_mem_example⟩

theorem config_mismatch_never_raised_witness :
    mainRun mismatchedParams exStream ≠ .error .ConfigurationMismatch :=
  config_mismatch_never_raised mismatchedParams exStream
